import Mathlib

/-!
Verification of the OmniCrawler-Analysis core: the crawl-result data model and
quality evaluator (`src/crawlers/base_crawler.py`), the scoring/ranking engine
(`src/utils/benchmark.py`), and the race collection loop (`src/app.py`).

Python floats are modelled as rationals, Python strings as Lean strings whose
operations are carried out on their code-point lists (`List Char`), and Python
`Optional` values as `Option`.  Dictionaries that are only written once per key
or read through `.get` are modelled as association lists with the relevant
insertion/overwrite discipline made explicit.
-/

/-! ## Data model: `CrawlResult` (`base_crawler.py`) -/

/-- The three metadata flags the quality evaluator reads through
`metadata.get(key, False)` in `get_structural_quality_score`. -/
structure CrawlMetadata where
  has_json : Bool
  has_markdown : Bool
  clean_text : Bool
deriving DecidableEq

/-- `CrawlResult` dataclass: one crawler's attempt result. -/
structure CrawlResult where
  url : String
  success : Bool
  time_taken : ℚ
  status_code : Option ℤ
  content : Option String
  error : Option String
  data_size : ℕ
  crawler_type : String
  metadata : CrawlMetadata
deriving DecidableEq

/-- Python truthiness of an optional string: `None` and `""` are falsy. -/
def contentTruthy : Option String → Bool
  | none => false
  | some s => !s.toList.isEmpty

/-- Python substring test `needle in hay` over code-point lists. -/
def charsContain (needle : List Char) : List Char → Bool
  | [] => needle.isPrefixOf ([] : List Char)
  | c :: cs => needle.isPrefixOf (c :: cs) || charsContain needle cs

/-- Python `str.strip()`: drop whitespace from both ends. -/
def pyStrip (l : List Char) : List Char :=
  ((l.dropWhile Char.isWhitespace).reverse.dropWhile Char.isWhitespace).reverse

/-- Python `str.lower()` as a code-point list. -/
def pyLower (s : String) : List Char := s.toList.map Char.toLower

/-- Python's binary `min`: the first argument when the two are equal. -/
def pymin (a b : ℚ) : ℚ := if a ≤ b then a else b

/-- Python's binary `max`: the first argument when the two are equal. -/
def pymax (a b : ℚ) : ℚ := if b > a then b else a

/-- The status codes of the block list in `has_data_integrity_issues`. -/
def blockedStatus (c : ℤ) : Bool := c == 403 || c == 429 || c == 503

/-- `self.status_code and self.status_code in [403, 429, 503]`: the status is
truthy (present and nonzero) and in the block list. -/
def statusTruthyBlocked : Option ℤ → Bool
  | none => false
  | some c => c != 0 && blockedStatus c

/-- `CrawlResult.has_data_integrity_issues` (`base_crawler.py:23`). -/
def hasDataIntegrityIssues (r : CrawlResult) : Bool :=
  if !r.success then true
  else if statusTruthyBlocked r.status_code then true
  else match r.content with
    | none => true
    | some s =>
      if s.toList.isEmpty || decide ((pyStrip s.toList).length < 100) then true
      else if charsContain ("blocked".toList) ((pyLower s).take 500)
          || charsContain ("captcha".toList) ((pyLower s).take 500) then true
      else false

/-- `CrawlResult.get_structural_quality_score` (`base_crawler.py:35`). -/
def get_structural_quality_score (r : CrawlResult) : ℚ :=
  if !r.success || !contentTruthy r.content then 0
  else
    let s := r.content.getD ("")
    let score : ℚ := 50
    let score := if r.metadata.has_json then score + 20 else score
    let score := if r.metadata.has_markdown then score + 15 else score
    let score := if r.metadata.clean_text then score + 15 else score
    let score := if charsContain ("<html".toList) ((s.toList.take 100).map Char.toLower)
      then score - 10 else score
    pymin 100 (pymax 0 score)

/-- `BaseCrawler._create_result` (`base_crawler.py:80`); the elapsed wall-clock
time is passed as a value rather than measured. -/
def create_result (name url : String) (success : Bool) (time_taken : ℚ)
    (status_code : Option ℤ) (content : Option String) (error : Option String)
    (metadata : Option CrawlMetadata) : CrawlResult :=
  { url := url
    success := success
    time_taken := time_taken
    status_code := status_code
    content := content
    error := error
    data_size := if contentTruthy content then (content.getD ("")).toList.length else 0
    crawler_type := name
    metadata := metadata.getD ⟨false, false, false⟩ }

/-! ## Scoring engine: winner (`benchmark.py:48`) -/

/-- `successful_results = [r for r in self.results if r.success]`. -/
def successes (results : List CrawlResult) : List CrawlResult :=
  results.filter (·.success)

/-- The per-result score accumulated inside the `get_winner` loop:
speed (capped at 30), integrity (0 or 30) and quality (scaled by 0.4). -/
def compositeScore (r : CrawlResult) : ℚ :=
  (if r.time_taken > 0 then pymin (1 / r.time_taken * 10) 30 else 0)
    + (if !hasDataIntegrityIssues r then 30 else 0)
    + get_structural_quality_score r * (4 / 10)

/-- Python dict assignment `scores[crawler] = score`: an existing key keeps its
position and has its value overwritten; a new key is appended. -/
def upsert (l : List (String × ℚ)) (k : String) (v : ℚ) : List (String × ℚ) :=
  match l with
  | [] => [(k, v)]
  | (k1, v1) :: t => if k1 = k then (k1, v) :: t else (k1, v1) :: upsert t k v

/-- The `scores` dict built by the `get_winner` loop over a result list. -/
def buildScores (rs : List CrawlResult) : List (String × ℚ) :=
  rs.foldl (fun acc r => upsert acc r.crawler_type (compositeScore r)) []

/-- Python `max(items, key=lambda x: x[1])`: the first item whose value no
later item strictly exceeds. -/
def maxBySnd (p : String × ℚ) (l : List (String × ℚ)) : String × ℚ :=
  l.foldl (fun best q => if q.2 > best.2 then q else best) p

/-- The fields of the dictionary `get_winner` returns that the claims test
(the human-readable rationale string is omitted). -/
structure WinnerInfo where
  winner : Option String
  score : ℚ
  all_scores : List (String × ℚ)
deriving DecidableEq

/-- `BenchmarkEngine.get_winner` (`benchmark.py:48`). -/
def get_winner (results : List CrawlResult) : WinnerInfo :=
  if results.isEmpty then ⟨none, 0, []⟩
  else
    match buildScores (successes results) with
    | [] => ⟨none, 0, []⟩
    | p :: t =>
      let w := maxBySnd p t
      ⟨some w.1, w.2, p :: t⟩

/-- Dict lookup in the `scores` association list (keys are unique there). -/
def scoresLookup (l : List (String × ℚ)) (k : String) : Option ℚ :=
  match l with
  | [] => none
  | (k1, v) :: t => if k1 = k then some v else scoresLookup t k

/-! ## Race collection loop (`app.py:70` and `app.py:192`) -/

/-- `run_crawler_with_antibot`: the thread body wrapping one adapter call.
The adapter either returns a `CrawlResult` or raises (`Except.error` carries
the exception text); on an exception the wrapper enqueues `(name, None)`. -/
def run_crawler_with_antibot (crawler_name : String)
    (attempt : Except String CrawlResult) : String × Option CrawlResult :=
  match attempt with
  | .ok r => (crawler_name, some r)
  | .error _ => (crawler_name, none)

/-- The collection loop of `main` (`app.py:193`): queue items are drained in
arrival order and `if result:` appends only non-`None` results to the
benchmark engine's store. -/
def collectResults (queueItems : List (String × Option CrawlResult)) :
    List CrawlResult :=
  queueItems.filterMap (·.2)

/-! ## Cost-benefit analysis (`benchmark.py:108`) -/

/-- `costs.get(crawler, 5)` over the fixed relative-cost table. -/
def crawlerCost (name : String) : ℚ :=
  if name = "Lightweight" then 1
  else if name = "Browser-Based" then 5
  else if name = "AI-Agentic" then 10
  else 5

/-- The benefit score of one row: 0 for a failed crawl, otherwise
`40 + (30 if no integrity issue) + quality * 0.3`. -/
def benefitScore (r : CrawlResult) : ℚ :=
  if r.success then
    40 + (if !hasDataIntegrityIssues r then 30 else 0)
      + get_structural_quality_score r * (3 / 10)
  else 0

/-- `cb_ratio = benefit / cost if cost > 0 else 0`. -/
def cbRatio (r : CrawlResult) : ℚ :=
  if crawlerCost r.crawler_type > 0
  then benefitScore r / crawlerCost r.crawler_type else 0

/-- The ratio as `get_recommendation` sees it: formatted with `:.2f` and parsed
back by `float(...)`, i.e. rounded to two decimal places. -/
def round2 (q : ℚ) : ℚ := (round (q * 100) : ℤ) / 100

/-- `get_recommendation` (`benchmark.py:169`), with the emoji prefixes of the
labels dropped. -/
def getRecommendation (r : CrawlResult) : String :=
  let cb := round2 (cbRatio r)
  if cb > 5 then "Excellent"
  else if cb > 3 then "Good"
  else if cb > 1 then "Fair"
  else "Poor"

/-! ## Speed and quality rankings (`benchmark.py:154`) -/

/-- Stable insertion into a sorted list: `a` goes before the first element `b`
that does not satisfy `lt b a`, hence after every element that strictly
precedes it and before every tie already present. -/
def insertBy {α : Type} (lt : α → α → Bool) (a : α) : List α → List α
  | [] => [a]
  | b :: t => if lt b a then b :: insertBy lt a t else a :: b :: t

/-- A stable sort (the model of Python's stable `sorted`): each element is
inserted in front of the ties that were inserted before it, which are exactly
the elements that follow it in the original list. -/
def sortBy {α : Type} (lt : α → α → Bool) : List α → List α
  | [] => []
  | a :: t => insertBy lt a (sortBy lt t)

/-- `successful_times`: `(crawler_type, time_taken)` of the successes. -/
def speedPairs (results : List CrawlResult) : List (String × ℚ) :=
  (successes results).map (fun r => (r.crawler_type, r.time_taken))

/-- `quality_scores`: `(crawler_type, structural quality)` of the successes. -/
def qualityPairs (results : List CrawlResult) : List (String × ℚ) :=
  (successes results).map (fun r => (r.crawler_type, get_structural_quality_score r))

/-- `sorted_by_speed`: stable sort of the pairs by ascending time. -/
def speedSorted (results : List CrawlResult) : List (String × ℚ) :=
  sortBy (fun p q => decide (p.2 < q.2)) (speedPairs results)

/-- `sorted_by_quality`: stable sort by descending quality (`reverse=True`). -/
def qualitySorted (results : List CrawlResult) : List (String × ℚ) :=
  sortBy (fun p q => decide (q.2 < p.2)) (qualityPairs results)

/-- `{crawler: idx + 1 for idx, (crawler, _) in enumerate(pairs)}`, indices
starting at `i`: the association list the dict comprehension builds. -/
def rankDictFrom (i : ℕ) : List (String × ℚ) → List (String × ℕ)
  | [] => []
  | p :: t => (p.1, i + 1) :: rankDictFrom (i + 1) t

/-- The rank dict built from a sorted pair list. -/
def rankDict (s : List (String × ℚ)) : List (String × ℕ) := rankDictFrom 0 s

/-- Python dict lookup `d.get(k, default)` on an association list built by
successive assignments: a later binding for the same key overwrites an
earlier one, so the lookup takes the last matching binding. -/
def dictGet (l : List (String × ℕ)) (k : String) : Option ℕ :=
  match l with
  | [] => none
  | (k1, v) :: t =>
    match dictGet t k with
    | some v2 => some v2
    | none => if k1 = k then some v else none

/-- `speed_ranks.get(x, '-')` for the crawler name of one table row
(`none` models `'-'`). -/
def speedRankOf (results : List CrawlResult) (name : String) : Option ℕ :=
  dictGet (rankDict (speedSorted results)) name

/-- `quality_ranks.get(x, '-')` for the crawler name of one table row. -/
def qualityRankOf (results : List CrawlResult) (name : String) : Option ℕ :=
  dictGet (rankDict (qualitySorted results)) name

/-- The `Speed Rank` column of the cost-benefit table, one entry per stored
result in insertion order. -/
def speedRankColumn (results : List CrawlResult) : List (Option ℕ) :=
  results.map (fun r => speedRankOf results r.crawler_type)

/-- The `Quality Rank` column of the cost-benefit table. -/
def qualityRankColumn (results : List CrawlResult) : List (Option ℕ) :=
  results.map (fun r => qualityRankOf results r.crawler_type)

/-- The index of the first occurrence of `x` in `m` (the length of `m` when
`x` is absent); used to reason about positions in the sorted rank lists. -/
def posIn {α : Type} [DecidableEq α] (m : List α) (x : α) : ℕ :=
  m.findIdx (fun y => decide (y = x))

/-- The number of true capability flags among the three quality metadata
flags. -/
def flagCount (m : CrawlMetadata) : ℕ :=
  (if m.has_json then 1 else 0) + (if m.has_markdown then 1 else 0)
    + (if m.clean_text then 1 else 0)

/-- The total score increment contributed by the metadata flags. -/
def flagWeight (m : CrawlMetadata) : ℚ :=
  (if m.has_json then 20 else 0) + (if m.has_markdown then 15 else 0)
    + (if m.clean_text then 15 else 0)

/-- Whether the raw-HTML penalty of the quality score fires on a content
string. -/
def htmlPenalty (s : String) : Bool :=
  charsContain ("<html".toList) ((s.toList.take 100).map Char.toLower)

/-! ## Sample outcomes used as concrete inputs -/

/-- A content payload long enough to pass the integrity length heuristic. -/
def okContent : String := String.mk (List.replicate 150 'a')

/-- A successful outcome: half a second, clean status, structured data. -/
def sampleA : CrawlResult :=
  { url := "https://example.com", success := true, time_taken := 1 / 2
    status_code := some 200, content := some okContent, error := none
    data_size := 150, crawler_type := "A", metadata := ⟨true, false, false⟩ }

/-- A successful outcome: 2.3 seconds, structured data and markdown. -/
def sampleB : CrawlResult :=
  { url := "https://example.com", success := true, time_taken := 23 / 10
    status_code := some 200, content := some okContent, error := none
    data_size := 150, crawler_type := "B", metadata := ⟨true, true, false⟩ }

/-- A second successful outcome for the same strategy id as `sampleA`, slower
(1 second), same content and flags. -/
def sampleA2 : CrawlResult :=
  { url := "https://example.com", success := true, time_taken := 1
    status_code := some 200, content := some okContent, error := none
    data_size := 150, crawler_type := "A", metadata := ⟨true, false, false⟩ }

/-- A failed outcome. -/
def sampleC : CrawlResult :=
  { url := "https://example.com", success := false, time_taken := 1
    status_code := none, content := none, error := some ("boom")
    data_size := 0, crawler_type := "C", metadata := ⟨false, false, false⟩ }

/-! ## Theorems -/

set_option maxRecDepth 100000

theorem pymin_eq_min (a b : ℚ) : pymin a b = min a b := by
  rw [pymin, min_def]

theorem pymax_eq_max (a b : ℚ) : pymax a b = max a b := by
  rw [pymax, max_def]
  rcases lt_trichotomy a b with h | h | h
  · simp [h, le_of_lt h]
  · simp [h]
  · simp [not_lt.mpr (le_of_lt h), not_le.mpr h]

/-- The quality score in closed form: `0` on failure or falsy content, else the
clamped base-plus-flag-weights value with the raw-HTML penalty. -/
theorem quality_eq (r : CrawlResult) :
    get_structural_quality_score r =
      if r.success && contentTruthy r.content then
        pymin 100 (pymax 0
          (50 + flagWeight r.metadata
            - (if htmlPenalty (r.content.getD ("")) then 10 else 0)))
      else 0 := by
  unfold get_structural_quality_score htmlPenalty
  cases hs : r.success
  · simp
  · cases hc : contentTruthy r.content
    · simp
    · simp only [Bool.not_true, Bool.false_or, Bool.true_and, if_neg (by simp : ¬(!true || !true) = true)]
      cases h1 : r.metadata.has_json <;> cases h2 : r.metadata.has_markdown <;>
        cases h3 : r.metadata.clean_text <;>
          cases hp : charsContain ("<html".toList)
            (((r.content.getD ("")).toList.take 100).map Char.toLower) <;>
            simp [flagWeight, h1, h2, h3, hp] <;> norm_num

theorem flagWeight_nonneg (m : CrawlMetadata) : 0 ≤ flagWeight m := by
  rcases m with ⟨a, b, c⟩
  cases a <;> cases b <;> cases c <;> norm_num [flagWeight]

theorem flagWeight_mono {m₁ m₂ : CrawlMetadata} (h : flagCount m₁ < flagCount m₂) :
    flagWeight m₁ ≤ flagWeight m₂ := by
  rcases m₁ with ⟨a₁, b₁, c₁⟩; rcases m₂ with ⟨a₂, b₂, c₂⟩
  cases a₁ <;> cases b₁ <;> cases c₁ <;> cases a₂ <;> cases b₂ <;> cases c₂ <;>
    simp_all [flagCount, flagWeight] <;> norm_num

/-- C9: for every outcome built by `_create_result`, `data_size` is the length
of the content string when content is present, and `0` when it is absent. -/
theorem C9_payload_size (name url : String) (success : Bool) (time_taken : ℚ)
    (status_code : Option ℤ) (content : Option String) (error : Option String)
    (metadata : Option CrawlMetadata) :
    (create_result name url success time_taken status_code content error
        metadata).data_size
      = match content with
        | some s => s.length
        | none => 0 := by
  cases content with
  | none => rfl
  | some s =>
    have hds : (create_result name url success time_taken status_code (some s) error
          metadata).data_size
        = if (!s.toList.isEmpty) = true then s.toList.length else 0 := rfl
    have hlen : s.toList.length = s.length := rfl
    cases h : s.toList.isEmpty
    · rw [hds, h]
      simp
    · rw [hds, h]
      have hz : s.length = 0 := by
        rw [← hlen, List.isEmpty_iff.mp h]
        rfl
      simp [hz]

/-- C6: the structural quality score never decreases when the number of true
capability flags strictly increases (all other fields fixed), is `0` whenever
the outcome failed, and always lies within `[0, 100]`. -/
theorem C6_quality_monotone_bounds :
    (∀ (u : String) (su : Bool) (tt : ℚ) (sc : Option ℤ) (ct : Option String)
      (er : Option String) (ds : ℕ) (cw : String) (m₁ m₂ : CrawlMetadata),
      flagCount m₁ < flagCount m₂ →
        get_structural_quality_score ⟨u, su, tt, sc, ct, er, ds, cw, m₁⟩
          ≤ get_structural_quality_score ⟨u, su, tt, sc, ct, er, ds, cw, m₂⟩)
    ∧ (∀ r : CrawlResult, r.success = false → get_structural_quality_score r = 0)
    ∧ (∀ r : CrawlResult,
        0 ≤ get_structural_quality_score r ∧ get_structural_quality_score r ≤ 100) := by
  refine ⟨?_, ?_, ?_⟩
  · intro u su tt sc ct er ds cw m₁ m₂ h
    rw [quality_eq, quality_eq]
    simp only
    split
    · rw [pymin_eq_min, pymin_eq_min, pymax_eq_max, pymax_eq_max]
      have hw := flagWeight_mono h
      exact min_le_min le_rfl (max_le_max le_rfl (by linarith))
    · exact le_rfl
  · intro r h
    rw [quality_eq]
    simp [h]
  · intro r
    rw [quality_eq]
    split
    · rw [pymin_eq_min, pymax_eq_max]
      constructor
      · exact le_min (by norm_num) (le_max_left 0 _)
      · exact min_le_left 100 _
    · norm_num

/-- C10: a successful outcome with nonempty content always scores at least 40
(and at most 100), so its quality contribution to the composite score is at
least 16. -/
theorem C10_quality_lower_bound (r : CrawlResult) (hs : r.success = true)
    (s : String) (hc : r.content = some s) (hne : s ≠ "") :
    40 ≤ get_structural_quality_score r ∧ get_structural_quality_score r ≤ 100
      ∧ 16 ≤ get_structural_quality_score r * (4 / 10) := by
  have hct : contentTruthy r.content = true := by
    rw [hc]
    show (!s.toList.isEmpty) = true
    cases h : s.toList.isEmpty
    · rfl
    · exact absurd (by ext1; exact List.isEmpty_iff.mp h : s = "") hne
  have h40 : 40 ≤ get_structural_quality_score r := by
    rw [quality_eq]
    simp only [hs, hct, Bool.and_self, if_pos]
    rw [pymin_eq_min, pymax_eq_max]
    have hw := flagWeight_nonneg r.metadata
    refine le_min (by norm_num) (le_trans ?_ (le_max_right 0 _))
    split <;> linarith
  refine ⟨h40, ?_, by linarith⟩
  rw [quality_eq]
  split
  · rw [pymin_eq_min]
    exact min_le_left 100 _
  · norm_num

theorem isEmpty_eq_decide (l : List Char) : l.isEmpty = decide (l = []) := by
  cases l <;> simp

theorem integrity_eq (r : CrawlResult) :
    hasDataIntegrityIssues r =
      (!r.success || statusTruthyBlocked r.status_code ||
        (match r.content with
          | none => true
          | some s => s.toList.isEmpty || decide ((pyStrip s.toList).length < 100)
              || charsContain ("blocked".toList) ((pyLower s).take 500)
              || charsContain ("captcha".toList) ((pyLower s).take 500))) := by
  unfold hasDataIntegrityIssues
  cases hsu : r.success <;> cases hst : statusTruthyBlocked r.status_code <;>
    cases hct : r.content <;> simp
  all_goals rename_i s
  all_goals cases hA : (s.toList.isEmpty || decide ((pyStrip s.toList).length < 100)) <;>
    cases hB : (charsContain ("blocked".toList) ((pyLower s).take 500)
      || charsContain ("captcha".toList) ((pyLower s).take 500)) <;>
    simp_all [Bool.or_assoc, isEmpty_eq_decide]

theorem statusTruthyBlocked_iff (sc : Option ℤ) :
    statusTruthyBlocked sc = true
      ↔ ∃ c, sc = some c ∧ (c = 403 ∨ c = 429 ∨ c = 503) := by
  cases sc with
  | none => simp [statusTruthyBlocked]
  | some c =>
    simp [statusTruthyBlocked, blockedStatus, bne_iff_ne]
    constructor
    · rintro ⟨-, h⟩
      tauto
    · intro h
      refine ⟨?_, by tauto⟩
      rcases h with h | h | h <;> subst h <;> norm_num

/-- C5: `has_data_integrity_issues` is true exactly when the outcome failed,
or its status code is in `{403, 429, 503}`, or content is absent or has
trimmed length under 100, or the lower-cased first 500 characters of the
content contain `"blocked"` or `"captcha"`. -/
theorem C5_integrity_iff (r : CrawlResult) :
    hasDataIntegrityIssues r = true ↔
      (r.success = false
        ∨ (∃ c, r.status_code = some c ∧ (c = 403 ∨ c = 429 ∨ c = 503))
        ∨ r.content = none
        ∨ (∃ s, r.content = some s ∧ (pyStrip s.toList).length < 100)
        ∨ (∃ s, r.content = some s ∧
            (charsContain ("blocked".toList) ((pyLower s).take 500) = true
              ∨ charsContain ("captcha".toList) ((pyLower s).take 500) = true))) := by
  rw [integrity_eq]
  simp only [← statusTruthyBlocked_iff]
  cases hct : r.content with
  | none => simp [hct]
  | some s =>
    have hemp : s.toList = [] → (pyStrip s.toList).length < 100 := by
      intro h
      rw [h]
      decide
    simp [hct, isEmpty_eq_decide, Bool.not_eq_true']
    tauto

theorem sampleA_quality : get_structural_quality_score sampleA = 70 := by
  rw [quality_eq]
  have h1 : ¬(okContent.data = []) := by decide
  have h2 : htmlPenalty okContent = false := by decide
  simp [sampleA, contentTruthy, isEmpty_eq_decide, h1, h2, flagWeight, pymin, pymax]
  norm_num

theorem sampleB_quality : get_structural_quality_score sampleB = 85 := by
  rw [quality_eq]
  have h1 : ¬(okContent.data = []) := by decide
  have h2 : htmlPenalty okContent = false := by decide
  simp [sampleB, contentTruthy, isEmpty_eq_decide, h1, h2, flagWeight, pymin, pymax]
  norm_num

/-- C4: on a store holding a success at 0.5s with clean integrity and quality
70, a success at 2.3s with clean integrity and quality 85, and a failure, the
winner is the first strategy with score exactly 78, and the failed strategy is
absent from the score mapping. -/
theorem C4_winner_example (a b c : CrawlResult)
    (ha : a.success = true) (hat : a.time_taken = 1 / 2)
    (hai : hasDataIntegrityIssues a = false)
    (haq : get_structural_quality_score a = 70)
    (hb : b.success = true) (hbt : b.time_taken = 23 / 10)
    (hbi : hasDataIntegrityIssues b = false)
    (hbq : get_structural_quality_score b = 85)
    (hc : c.success = false)
    (hab : a.crawler_type ≠ b.crawler_type) :
    get_winner [a, b, c]
      = ⟨some a.crawler_type, 78,
          [(a.crawler_type, 78), (b.crawler_type, 1572 / 23)]⟩ := by
  have hca : compositeScore a = 78 := by
    rw [compositeScore, hat, hai, haq]
    norm_num [pymin]
  have hcb : compositeScore b = 1572 / 23 := by
    rw [compositeScore, hbt, hbi, hbq]
    norm_num [pymin]
  have hsucc : successes [a, b, c] = [a, b] := by
    simp [successes, List.filter, ha, hb, hc]
  have hbs : buildScores [a, b] = [(a.crawler_type, 78), (b.crawler_type, 1572 / 23)] := by
    simp [buildScores, upsert, hca, hcb, hab]
  have hmax : maxBySnd (a.crawler_type, 78) [(b.crawler_type, 1572 / 23)]
      = (a.crawler_type, 78) := by
    norm_num [maxBySnd]
  simp [get_winner, hsucc, hbs, hmax]

/-- Witness for C4 at concrete outcomes. -/
theorem C4_witness :
    get_winner [sampleA, sampleB, sampleC]
      = ⟨some sampleA.crawler_type, 78,
          [(sampleA.crawler_type, 78), (sampleB.crawler_type, 1572 / 23)]⟩ :=
  C4_winner_example sampleA sampleB sampleC rfl rfl (by decide) sampleA_quality
    rfl rfl (by decide) sampleB_quality rfl (by decide)

theorem sampleA2_quality : get_structural_quality_score sampleA2 = 70 := by
  rw [quality_eq]
  have h1 : ¬(okContent.data = []) := by decide
  have h2 : htmlPenalty okContent = false := by decide
  simp [sampleA2, contentTruthy, isEmpty_eq_decide, h1, h2, flagWeight, pymin, pymax]
  norm_num

theorem sampleA_composite : compositeScore sampleA = 78 := by
  rw [compositeScore, show sampleA.time_taken = 1 / 2 from rfl,
    show hasDataIntegrityIssues sampleA = false from by decide, sampleA_quality]
  norm_num [pymin]

theorem sampleA2_composite : compositeScore sampleA2 = 68 := by
  rw [compositeScore, show sampleA2.time_taken = 1 from rfl,
    show hasDataIntegrityIssues sampleA2 = false from by decide, sampleA2_quality]
  norm_num [pymin]

/-- C1 counterexample: with two successful outcomes for the same strategy id
`"A"` (the first scoring 78, the second 68), `get_winner` reports score 68 —
the score of the **later** outcome — so the winner score is not computed from
the first successful outcome and later outcomes do affect it. -/
theorem C1_cex :
    get_winner [sampleA, sampleA2] = ⟨some ("A"), 68, [("A", 68)]⟩
      ∧ compositeScore sampleA = 78 ∧ (68 : ℚ) ≠ 78 := by
  refine ⟨?_, sampleA_composite, by norm_num⟩
  have hbs : buildScores (successes [sampleA, sampleA2])
      = [("A", compositeScore sampleA2)] := rfl
  simp [get_winner, hbs, sampleA2_composite, maxBySnd]

theorem scoresLookup_upsert (l : List (String × ℚ)) (k k' : String) (v : ℚ) :
    scoresLookup (upsert l k v) k' = if k = k' then some v else scoresLookup l k' := by
  induction l with
  | nil => by_cases h : k = k' <;> simp [upsert, scoresLookup, h]
  | cons p t ih =>
    obtain ⟨k1, v1⟩ := p
    by_cases h1 : k1 = k
    · subst h1
      by_cases h2 : k1 = k' <;> simp [upsert, scoresLookup, h2]
    · by_cases h2 : k1 = k'
      · subst h2
        simp [upsert, h1, scoresLookup, Ne.symm h1]
      · simp [upsert, h1, scoresLookup, h2, ih]

theorem buildScores_lookup (rs : List CrawlResult) (acc : List (String × ℚ))
    (name : String) :
    scoresLookup (rs.foldl (fun a r => upsert a r.crawler_type (compositeScore r)) acc) name
      = match rs.reverse.find? (fun r => r.crawler_type == name) with
        | some r => some (compositeScore r)
        | none => scoresLookup acc name := by
  induction rs generalizing acc with
  | nil => simp
  | cons r t ih =>
    rw [List.foldl_cons, ih]
    rw [List.reverse_cons, List.find?_append]
    cases hf : t.reverse.find? (fun r => r.crawler_type == name) with
    | some r' => simp [Option.or]
    | none =>
      cases hb : (r.crawler_type == name)
      · simp [Option.or, List.find?, hb, scoresLookup_upsert]
        intro h
        exact absurd (by simp [h] : (r.crawler_type == name) = true) (by simp [hb])
      · simp [Option.or, List.find?, hb, scoresLookup_upsert]
        simp [show r.crawler_type = name from by simpa using hb]

/-- C1 amended: the score `get_winner` records for a strategy id is the
composite score of that strategy's **last** successful outcome in insertion
order; earlier successful outcomes for the same strategy id have no effect on
the recorded score (only on the mapping's position). -/
theorem C1_amended_last_success (results : List CrawlResult) (name : String) :
    scoresLookup ((get_winner results).all_scores) name
      = match (successes results).reverse.find? (fun r => r.crawler_type == name) with
        | some r => some (compositeScore r)
        | none => none := by
  have h := buildScores_lookup (successes results) [] name
  have hall : (get_winner results).all_scores = buildScores (successes results) := by
    rw [get_winner]
    cases hres : results.isEmpty
    · simp only [Bool.false_eq_true, if_false]
      cases hbs : buildScores (successes results) <;> simp [hbs]
    · have hnil : results = [] := List.isEmpty_iff.mp hres
      subst hnil
      simp [successes, buildScores]
  rw [hall]
  rw [show buildScores (successes results)
      = (successes results).foldl (fun a r => upsert a r.crawler_type (compositeScore r)) []
    from rfl]
  rw [h]
  cases hf : (successes results).reverse.find? (fun r => r.crawler_type == name) <;>
    simp [scoresLookup]

/-- C2 counterexample: when an adapter raises, the wrapper enqueues
`(name, None)` instead of a failed outcome, and the collection loop skips the
`None`, so with two dispatched strategies (one crashing) the store holds only
one row, not two. -/
theorem C2_cex :
    (run_crawler_with_antibot ("B") (Except.error ("boom"))).2 = none
      ∧ (collectResults
          [run_crawler_with_antibot ("A") (Except.ok sampleA),
            run_crawler_with_antibot ("B") (Except.error ("boom"))]).length = 1
      ∧ (1 : ℕ) ≠ 2 :=
  ⟨rfl, rfl, by norm_num⟩

/-- C2 amended: every dispatched strategy yields exactly one queue entry (a
crash never aborts the race), but a crashing adapter is not converted into a
failed `CrawlResult`: the store keeps exactly the outcomes of the adapters
that returned, so crashed strategies have no row. -/
theorem C2_amended_crash_drops_row
    (dispatched : List (String × Except String CrawlResult)) :
    (dispatched.map (fun p => run_crawler_with_antibot p.1 p.2)).length = dispatched.length
      ∧ collectResults (dispatched.map (fun p => run_crawler_with_antibot p.1 p.2))
          = dispatched.filterMap (fun p => p.2.toOption) := by
  refine ⟨by simp, ?_⟩
  induction dispatched with
  | nil => rfl
  | cons p t ih =>
    obtain ⟨n, att⟩ := p
    cases att <;>
      simp_all [run_crawler_with_antibot, collectResults, Except.toOption]

/-- C3 counterexample: with dispatch order `[A, B]` but completion order
`[B, A]`, the collected sequence is `[B's outcome, A's outcome]`, not the
dispatch-ordered `[A's outcome, B's outcome]`, although the queue contents are
a permutation of the dispatched items. -/
theorem C3_cex :
    ([run_crawler_with_antibot ("B") (Except.ok sampleB),
        run_crawler_with_antibot ("A") (Except.ok sampleA)].Perm
      [run_crawler_with_antibot ("A") (Except.ok sampleA),
        run_crawler_with_antibot ("B") (Except.ok sampleB)])
    ∧ collectResults
        [run_crawler_with_antibot ("B") (Except.ok sampleB),
          run_crawler_with_antibot ("A") (Except.ok sampleA)]
      ≠ [sampleA, sampleB] := by
  refine ⟨List.Perm.swap _ _ _, ?_⟩
  intro h
  rw [show collectResults
      [run_crawler_with_antibot ("B") (Except.ok sampleB),
        run_crawler_with_antibot ("A") (Except.ok sampleA)]
    = [sampleB, sampleA] from rfl] at h
  injection h with h1 h2
  exact absurd (congrArg CrawlResult.crawler_type h1) (by decide)

/-- C3 amended: the collected sequence follows queue completion order, so it
is only a permutation of the outcomes collected in dispatch order — the
multiset of outcomes is completion-order independent, the sequence is not. -/
theorem C3_amended_completion_order
    (dispatched arrival : List (String × Option CrawlResult))
    (h : arrival.Perm dispatched) :
    (collectResults arrival).Perm (collectResults dispatched) :=
  h.filterMap _

/-- Witness for C3's amended theorem at a concrete two-adapter race. -/
theorem C3_witness :
    (collectResults [run_crawler_with_antibot ("B") (Except.ok sampleB),
        run_crawler_with_antibot ("A") (Except.ok sampleA)]).Perm
      (collectResults [run_crawler_with_antibot ("A") (Except.ok sampleA),
        run_crawler_with_antibot ("B") (Except.ok sampleB)]) :=
  C3_amended_completion_order _ _ (List.Perm.swap _ _ _)

/-- Witness for C10 at a concrete successful outcome. -/
theorem C10_witness :
    40 ≤ get_structural_quality_score sampleA
      ∧ get_structural_quality_score sampleA ≤ 100
      ∧ 16 ≤ get_structural_quality_score sampleA * (4 / 10) :=
  C10_quality_lower_bound sampleA rfl okContent rfl (by decide)

theorem quality_values (r : CrawlResult) :
    get_structural_quality_score r = 0 ∨ get_structural_quality_score r = 40
      ∨ get_structural_quality_score r = 50 ∨ get_structural_quality_score r = 55
      ∨ get_structural_quality_score r = 60 ∨ get_structural_quality_score r = 65
      ∨ get_structural_quality_score r = 70 ∨ get_structural_quality_score r = 75
      ∨ get_structural_quality_score r = 80 ∨ get_structural_quality_score r = 85
      ∨ get_structural_quality_score r = 90 ∨ get_structural_quality_score r = 100 := by
  rw [quality_eq]
  split
  · rcases hm : r.metadata with ⟨a, b, c⟩
    cases hp : htmlPenalty (r.content.getD ("")) <;>
      cases a <;> cases b <;> cases c <;>
        norm_num [flagWeight, pymin, pymax]
  · tauto

theorem quality_int (r : CrawlResult) :
    ∃ n : ℕ, get_structural_quality_score r = (n : ℚ) := by
  rcases quality_values r with h | h | h | h | h | h | h | h | h | h | h | h <;> rw [h]
  exacts [⟨0, by norm_num⟩, ⟨40, by norm_num⟩, ⟨50, by norm_num⟩, ⟨55, by norm_num⟩,
    ⟨60, by norm_num⟩, ⟨65, by norm_num⟩, ⟨70, by norm_num⟩, ⟨75, by norm_num⟩,
    ⟨80, by norm_num⟩, ⟨85, by norm_num⟩, ⟨90, by norm_num⟩, ⟨100, by norm_num⟩]

theorem benefit10_int (r : CrawlResult) : ∃ z : ℤ, benefitScore r * 10 = (z : ℚ) := by
  obtain ⟨n, hn⟩ := quality_int r
  rw [benefitScore]
  split_ifs with h1 h2
  · exact ⟨700 + 3 * n, by rw [hn]; push_cast; ring⟩
  · exact ⟨400 + 3 * n, by rw [hn]; push_cast; ring⟩
  · exact ⟨0, by norm_num⟩

theorem cost_cases (name : String) :
    crawlerCost name = 1 ∨ crawlerCost name = 5 ∨ crawlerCost name = 10 := by
  rw [crawlerCost]
  split_ifs <;> norm_num

theorem ratio100_int (r : CrawlResult) : ∃ z : ℤ, cbRatio r * 100 = (z : ℚ) := by
  obtain ⟨z, hz⟩ := benefit10_int r
  rw [cbRatio]
  rcases cost_cases r.crawler_type with h | h | h <;> rw [h]
  · rw [if_pos (by norm_num : (1 : ℚ) > 0)]
    exact ⟨10 * z, by push_cast; field_simp; linarith⟩
  · rw [if_pos (by norm_num : (5 : ℚ) > 0)]
    exact ⟨2 * z, by push_cast; field_simp; linarith⟩
  · rw [if_pos (by norm_num : (10 : ℚ) > 0)]
    exact ⟨z, by field_simp; linarith⟩

theorem round2_id {q : ℚ} (h : ∃ z : ℤ, q * 100 = (z : ℚ)) : round2 q = q := by
  obtain ⟨z, hz⟩ := h
  rw [round2, hz, round_intCast]
  field_simp
  linarith

/-- C7: every cost-benefit row has `ratio = benefit / cost`; the recommendation
is "excellent" exactly for ratio > 5, "good" for 3 < ratio ≤ 5, "fair" for
1 < ratio ≤ 3, and "poor" otherwise; a failed outcome always gets benefit 0,
ratio 0 and "poor". -/
theorem C7_cost_benefit (r : CrawlResult) :
    cbRatio r = benefitScore r / crawlerCost r.crawler_type
      ∧ (getRecommendation r = "Excellent" ↔ 5 < cbRatio r)
      ∧ (getRecommendation r = "Good" ↔ 3 < cbRatio r ∧ cbRatio r ≤ 5)
      ∧ (getRecommendation r = "Fair" ↔ 1 < cbRatio r ∧ cbRatio r ≤ 3)
      ∧ (getRecommendation r = "Poor" ↔ cbRatio r ≤ 1)
      ∧ (r.success = false →
          benefitScore r = 0 ∧ cbRatio r = 0 ∧ getRecommendation r = "Poor") := by
  have hpos : 0 < crawlerCost r.crawler_type := by
    rcases cost_cases r.crawler_type with h | h | h <;> rw [h] <;> norm_num
  have hratio : cbRatio r = benefitScore r / crawlerCost r.crawler_type := by
    rw [cbRatio, if_pos hpos]
  have hrec : getRecommendation r
      = if cbRatio r > 5 then "Excellent" else if cbRatio r > 3 then "Good"
        else if cbRatio r > 1 then "Fair" else "Poor" := by
    rw [getRecommendation, round2_id (ratio100_int r)]
  have hfail : r.success = false →
      benefitScore r = 0 ∧ cbRatio r = 0 ∧ getRecommendation r = "Poor" := by
    intro h
    have hb : benefitScore r = 0 := by simp [benefitScore, h]
    have hc : cbRatio r = 0 := by rw [hratio, hb, zero_div]
    refine ⟨hb, hc, ?_⟩
    rw [hrec, hc]
    norm_num
  refine ⟨hratio, ?_, ?_, ?_, ?_, hfail⟩ <;> rw [hrec] <;> split_ifs with h1 h2 h3 <;>
    simp_all <;> try constructor
  all_goals try intro h
  all_goals linarith

section SortLemmas

variable {α : Type} {β : Type} [LinearOrder β] {lt : α → α → Bool} {f : α → β}

theorem insertBy_perm (lt : α → α → Bool) (a : α) (l : List α) :
    (insertBy lt a l).Perm (a :: l) := by
  induction l with
  | nil => exact List.Perm.refl _
  | cons b t ih =>
    cases hb : lt b a
    · simp [insertBy, hb]
    · simp only [insertBy, hb, if_true]
      exact (ih.cons b).trans (List.Perm.swap a b t)

theorem sortBy_perm (lt : α → α → Bool) (l : List α) : (sortBy lt l).Perm l := by
  induction l with
  | nil => exact List.Perm.refl _
  | cons a t ih => exact (insertBy_perm lt a _).trans (ih.cons a)

theorem insertBy_pairwise (hk : ∀ x y, lt x y = decide (f x < f y)) (a : α)
    {l : List α} (hl : l.Pairwise (fun x y => f x ≤ f y)) :
    (insertBy lt a l).Pairwise (fun x y => f x ≤ f y) := by
  induction l with
  | nil => simp [insertBy]
  | cons b t ih =>
    rcases List.pairwise_cons.mp hl with ⟨hb, ht⟩
    cases hlt : lt b a
    · have hab : f a ≤ f b := by
        have h := (hk b a).symm.trans hlt
        exact le_of_not_lt (of_decide_eq_false h)
      rw [insertBy, hlt]
      simp only [Bool.false_eq_true, if_false]
      refine List.Pairwise.cons ?_ hl
      intro x hx
      rcases List.mem_cons.mp hx with rfl | hx'
      · exact hab
      · exact le_trans hab (hb x hx')
    · have hba : f b < f a := of_decide_eq_true ((hk b a).symm.trans hlt)
      rw [insertBy, hlt]
      simp only [if_true]
      refine List.Pairwise.cons ?_ (ih ht)
      intro x hx
      have hx' : x = a ∨ x ∈ t := by
        simpa using (insertBy_perm lt a t).mem_iff.mp hx
      rcases hx' with rfl | hx'
      · exact le_of_lt hba
      · exact hb x hx'

theorem sortBy_pairwise (hk : ∀ x y, lt x y = decide (f x < f y)) (l : List α) :
    (sortBy lt l).Pairwise (fun x y => f x ≤ f y) := by
  induction l with
  | nil => exact List.Pairwise.nil
  | cons a t ih => exact insertBy_pairwise hk a ih

end SortLemmas

section SortStability

variable {α : Type} {β : Type} [LinearOrder β] {lt : α → α → Bool} {f : α → β}

theorem insertBy_filter_of_ne (a : α) (k : β) (hak : ¬ f a = k) (l : List α) :
    (insertBy lt a l).filter (fun x => decide (f x = k))
      = l.filter (fun x => decide (f x = k)) := by
  induction l with
  | nil => simp [insertBy, hak]
  | cons b t ih =>
    cases hlt : lt b a
    · simp only [insertBy, hlt, Bool.false_eq_true, if_false]
      simp [List.filter_cons, hak]
    · simp only [insertBy, hlt, if_true]
      rw [List.filter_cons, List.filter_cons, ih]

theorem insertBy_filter_of_eq (hk : ∀ x y, lt x y = decide (f x < f y)) (a : α)
    (k : β) (hak : f a = k) {l : List α}
    (hl : l.Pairwise (fun x y => f x ≤ f y)) :
    (insertBy lt a l).filter (fun x => decide (f x = k))
      = a :: l.filter (fun x => decide (f x = k)) := by
  induction l with
  | nil => simp [insertBy, hak]
  | cons b t ih =>
    rcases List.pairwise_cons.mp hl with ⟨hb, ht⟩
    cases hlt : lt b a
    · simp only [insertBy, hlt, Bool.false_eq_true, if_false]
      simp [List.filter_cons, hak]
    · have hba : f b < f a := of_decide_eq_true ((hk b a).symm.trans hlt)
      have hbk : ¬ (f b = k) := by
        rw [← hak]
        exact ne_of_lt hba
      simp only [insertBy, hlt, if_true]
      rw [List.filter_cons, List.filter_cons]
      simp only [decide_eq_true_eq, hbk, if_false]
      exact ih ht

theorem sortBy_filter_key (hk : ∀ x y, lt x y = decide (f x < f y)) (k : β)
    (l : List α) :
    (sortBy lt l).filter (fun x => decide (f x = k))
      = l.filter (fun x => decide (f x = k)) := by
  induction l with
  | nil => rfl
  | cons a t ih =>
    by_cases hak : f a = k
    · rw [sortBy, insertBy_filter_of_eq hk a k hak (sortBy_pairwise hk t), ih,
        List.filter_cons]
      simp [hak]
    · rw [sortBy, insertBy_filter_of_ne a k hak, ih, List.filter_cons]
      simp [hak]

end SortStability

section PosLemmas

variable {α : Type} [DecidableEq α]

theorem posIn_cons_self (x : α) (m : List α) : posIn (x :: m) x = 0 := by
  simp [posIn, List.findIdx_cons]

theorem posIn_cons_ne {y x : α} (h : y ≠ x) (m : List α) :
    posIn (y :: m) x = posIn m x + 1 := by
  simp [posIn, List.findIdx_cons, h]

theorem posIn_getElem {m : List α} (hnd : m.Nodup) (i : ℕ) (hi : i < m.length) :
    posIn m m[i] = i := by
  induction m generalizing i with
  | nil => simp at hi
  | cons a t ih =>
    rcases List.nodup_cons.mp hnd with ⟨ha, ht⟩
    cases i with
    | zero => simp [posIn_cons_self]
    | succ n =>
      have hn : n < t.length := by simpa using hi
      have hmem : t[n] ∈ t := List.getElem_mem hn
      have hne : a ≠ t[n] := fun h => ha (h ▸ hmem)
      rw [List.getElem_cons_succ, posIn_cons_ne hne, ih ht n hn]

theorem posIn_pos_of_ne_head {a x : α} (m : List α) (h : a ≠ x) :
    0 < posIn (a :: m) x := by
  rw [posIn_cons_ne h]
  exact Nat.succ_pos _

theorem posIn_filter_lt_iff {m : List α} (pred : α → Bool) (hnd : m.Nodup)
    {p q : α} (hp : p ∈ m) (hq : q ∈ m) (hpred : pred p = true)
    (hqpred : pred q = true) :
    posIn m p < posIn m q
      ↔ posIn (m.filter pred) p < posIn (m.filter pred) q := by
  induction m with
  | nil => cases hp
  | cons a t ih =>
    rcases List.nodup_cons.mp hnd with ⟨ha, ht⟩
    by_cases hap : a = p
    · subst hap
      rw [List.filter_cons, if_pos hpred]
      by_cases haq : a = q
      · subst haq
        simp
      · have hq' : q ∈ t := (List.mem_cons.mp hq).resolve_left (fun h => haq h.symm)
        rw [posIn_cons_self, posIn_cons_self]
        constructor
        · intro _
          exact posIn_pos_of_ne_head _ haq
        · intro _
          exact posIn_pos_of_ne_head _ haq
    · have hp' : p ∈ t := (List.mem_cons.mp hp).resolve_left (fun h => hap h.symm)
      by_cases haq : a = q
      · subst haq
        rw [List.filter_cons, if_pos hqpred]
        rw [posIn_cons_self, posIn_cons_self]
        simp
      · have hq' : q ∈ t := (List.mem_cons.mp hq).resolve_left (fun h => haq h.symm)
        have hne_p : a ≠ p := hap
        have hne_q : a ≠ q := haq
        rw [posIn_cons_ne hne_p, posIn_cons_ne hne_q, List.filter_cons]
        split
        · rw [posIn_cons_ne hne_p, posIn_cons_ne hne_q]
          simpa using ih ht hp' hq'
        · simpa using ih ht hp' hq'

end PosLemmas

section RankDictLemmas

theorem dictGet_rankDictFrom (S : List (String × ℚ)) (i : ℕ) (n : String)
    (hnd : (S.map (fun p => p.1)).Nodup) :
    dictGet (rankDictFrom i S) n
      = if n ∈ S.map (fun p => p.1)
        then some (i + posIn (S.map (fun p => p.1)) n + 1) else none := by
  induction S generalizing i with
  | nil => simp [rankDictFrom, dictGet]
  | cons p T ih =>
    rw [List.map_cons] at hnd ⊢
    rcases List.nodup_cons.mp hnd with ⟨hp, hT⟩
    rw [rankDictFrom]
    show (match dictGet (rankDictFrom (i + 1) T) n with
      | some v2 => some v2
      | none => if p.1 = n then some (i + 1) else none) = _
    rw [ih (i + 1) hT]
    by_cases hn : n ∈ T.map (fun p => p.1)
    · have hpn : p.1 ≠ n := fun h => hp (h ▸ hn)
      rw [if_pos hn]
      rw [if_pos (List.mem_cons.mpr (Or.inr hn)), posIn_cons_ne hpn]
      show some (i + 1 + posIn (T.map (fun p => p.1)) n + 1)
        = some (i + (posIn (T.map (fun p => p.1)) n + 1) + 1)
      congr 1
      omega
    · rw [if_neg hn]
      by_cases hpn : p.1 = n
      · subst hpn
        rw [if_pos (List.mem_cons.mpr (Or.inl rfl)), posIn_cons_self]
        simp
      · rw [if_neg (show ¬ n ∈ p.1 :: T.map (fun p => p.1) from by
          intro hmem
          rcases List.mem_cons.mp hmem with h | h
          · exact hpn h.symm
          · exact hn h)]
        simp [hpn]

theorem posIn_map_fst (S : List (String × ℚ)) (p : String × ℚ)
    (hnd : (S.map (fun q => q.1)).Nodup) (hp : p ∈ S) :
    posIn (S.map (fun q => q.1)) p.1 = posIn S p := by
  induction S with
  | nil => cases hp
  | cons q T ih =>
    rw [List.map_cons] at hnd ⊢
    rcases List.nodup_cons.mp hnd with ⟨hq, hT⟩
    by_cases hqp : q = p
    · subst hqp
      rw [posIn_cons_self, posIn_cons_self]
    · have hp' : p ∈ T := (List.mem_cons.mp hp).resolve_left (fun h => hqp h.symm)
      have hq1 : q.1 ≠ p.1 := by
        intro h
        exact hq (h ▸ List.mem_map.mpr ⟨p, hp', rfl⟩)
      rw [posIn_cons_ne hq1, posIn_cons_ne hqp, ih hT hp']

end RankDictLemmas

section MorePosLemmas

variable {α : Type} [DecidableEq α]

theorem posIn_lt_length {m : List α} {x : α} (hx : x ∈ m) : posIn m x < m.length := by
  induction m with
  | nil => cases hx
  | cons a t ih =>
    by_cases hax : a = x
    · subst hax
      rw [posIn_cons_self]
      simp
    · have hx' : x ∈ t := (List.mem_cons.mp hx).resolve_left (fun h => hax h.symm)
      rw [posIn_cons_ne hax]
      simpa using ih hx'

theorem getElem_posIn {m : List α} {x : α} (hx : x ∈ m)
    (h : posIn m x < m.length) : m[posIn m x] = x := by
  induction m with
  | nil => cases hx
  | cons a t ih =>
    by_cases hax : a = x
    · subst hax
      simp [posIn_cons_self]
    · have hx' : x ∈ t := (List.mem_cons.mp hx).resolve_left (fun h => hax h.symm)
      simp only [posIn_cons_ne hax, List.getElem_cons_succ]
      exact ih hx' (posIn_lt_length hx')

end MorePosLemmas

section GenericRanks

variable {β : Type} [LinearOrder β] {lt : (String × ℚ) → (String × ℚ) → Bool}
  {f : (String × ℚ) → β}

theorem sortBy_nodup {α : Type} (lt : α → α → Bool) {l : List α} (h : l.Nodup) :
    (sortBy lt l).Nodup :=
  (sortBy_perm lt l).symm.nodup h

theorem posIn_sortBy_lt_of_key_lt (hk : ∀ x y, lt x y = decide (f x < f y))
    {P : List (String × ℚ)} {p q : String × ℚ}
    (hp : p ∈ sortBy lt P) (hq : q ∈ sortBy lt P) (hpq : f p < f q) :
    posIn (sortBy lt P) p < posIn (sortBy lt P) q := by
  set S := sortBy lt P with hS
  have hsorted := sortBy_pairwise hk P
  rcases lt_trichotomy (posIn S p) (posIn S q) with h | h | h
  · exact h
  · exfalso
    have e1 : S[posIn S p]? = some p := by
      rw [List.getElem?_eq_getElem (posIn_lt_length hp), getElem_posIn hp]
    have e2 : S[posIn S q]? = some q := by
      rw [List.getElem?_eq_getElem (posIn_lt_length hq), getElem_posIn hq]
    have hpq' : p = q := by
      have : some p = some q := by rw [← e1, ← e2, h]
      exact Option.some.inj this
    rw [hpq'] at hpq
    exact lt_irrefl _ hpq
  · exfalso
    have := (List.pairwise_iff_getElem.mp hsorted) (posIn S q) (posIn S p)
      (posIn_lt_length hq) (posIn_lt_length hp) h
    rw [getElem_posIn hq, getElem_posIn hp] at this
    exact absurd hpq (not_lt.mpr this)

theorem posIn_sortBy_tie (hk : ∀ x y, lt x y = decide (f x < f y))
    {P : List (String × ℚ)} (hndP : P.Nodup) {p q : String × ℚ}
    (hpP : p ∈ P) (hqP : q ∈ P) (htie : f p = f q) :
    (posIn (sortBy lt P) p < posIn (sortBy lt P) q ↔ posIn P p < posIn P q) := by
  set S := sortBy lt P with hS
  have hndS : S.Nodup := sortBy_nodup lt hndP
  have hpS : p ∈ S := ((sortBy_perm lt P).mem_iff).mpr hpP
  have hqS : q ∈ S := ((sortBy_perm lt P).mem_iff).mpr hqP
  have hpredp : (fun x => decide (f x = f p)) p = true := by simp
  have hpredq : (fun x => decide (f x = f p)) q = true := by simp [htie.symm]
  have hfsame : S.filter (fun x => decide (f x = f p))
      = P.filter (fun x => decide (f x = f p)) := sortBy_filter_key hk (f p) P
  rw [posIn_filter_lt_iff (fun x => decide (f x = f p)) hndS hpS hqS hpredp hpredq,
    hfsame,
    ← posIn_filter_lt_iff (fun x => decide (f x = f p)) hndP hpP hqP hpredp hpredq]

theorem posIn_sortBy_lt_iff (hk : ∀ x y, lt x y = decide (f x < f y))
    {P : List (String × ℚ)} (hndP : P.Nodup) {i j : ℕ}
    (hi : i < P.length) (hj : j < P.length) :
    posIn (sortBy lt P) P[i] < posIn (sortBy lt P) P[j]
      ↔ (f P[i] < f P[j] ∨ (f P[i] = f P[j] ∧ i < j)) := by
  have hpP : P[i] ∈ P := List.getElem_mem hi
  have hqP : P[j] ∈ P := List.getElem_mem hj
  have hpS : P[i] ∈ sortBy lt P := ((sortBy_perm lt P).mem_iff).mpr hpP
  have hqS : P[j] ∈ sortBy lt P := ((sortBy_perm lt P).mem_iff).mpr hqP
  constructor
  · intro h
    rcases lt_trichotomy (f P[i]) (f P[j]) with hf | hf | hf
    · exact Or.inl hf
    · refine Or.inr ⟨hf, ?_⟩
      have := (posIn_sortBy_tie hk hndP hpP hqP hf).mp h
      rwa [posIn_getElem hndP i hi, posIn_getElem hndP j hj] at this
    · exact absurd (posIn_sortBy_lt_of_key_lt hk hqS hpS hf)
        (not_lt.mpr (le_of_lt h))
  · rintro (hf | ⟨hf, hij⟩)
    · exact posIn_sortBy_lt_of_key_lt hk hpS hqS hf
    · rw [posIn_sortBy_tie hk hndP hpP hqP hf,
        posIn_getElem hndP i hi, posIn_getElem hndP j hj]
      exact hij

end GenericRanks

section RankTheorems

variable {β : Type} [LinearOrder β] {lt : (String × ℚ) → (String × ℚ) → Bool}
  {f : (String × ℚ) → β}

theorem rank_mem (lt : (String × ℚ) → (String × ℚ) → Bool)
    {P : List (String × ℚ)} (hnd : (P.map (fun p => p.1)).Nodup)
    {p : String × ℚ} (hp : p ∈ P) :
    dictGet (rankDict (sortBy lt P)) p.1 = some (posIn (sortBy lt P) p + 1) := by
  set S := sortBy lt P with hS
  have hmapperm : (S.map (fun p => p.1)).Perm (P.map (fun p => p.1)) :=
    (sortBy_perm lt P).map _
  have hndS : (S.map (fun p => p.1)).Nodup := hmapperm.symm.nodup hnd
  have hpS : p ∈ S := ((sortBy_perm lt P).mem_iff).mpr hp
  rw [rankDict, dictGet_rankDictFrom S 0 p.1 hndS,
    if_pos (List.mem_map.mpr ⟨p, hpS, rfl⟩), posIn_map_fst S p hndS hpS]
  simp

theorem rank_none (lt : (String × ℚ) → (String × ℚ) → Bool)
    {P : List (String × ℚ)} (hnd : (P.map (fun p => p.1)).Nodup)
    {n : String} (hn : ¬ n ∈ P.map (fun p => p.1)) :
    dictGet (rankDict (sortBy lt P)) n = none := by
  set S := sortBy lt P with hS
  have hmapperm : (S.map (fun p => p.1)).Perm (P.map (fun p => p.1)) :=
    (sortBy_perm lt P).map _
  have hndS : (S.map (fun p => p.1)).Nodup := hmapperm.symm.nodup hnd
  rw [rankDict, dictGet_rankDictFrom S 0 n hndS,
    if_neg (fun h => hn (hmapperm.mem_iff.mp h))]

theorem rank_column_perm (lt : (String × ℚ) → (String × ℚ) → Bool)
    {P : List (String × ℚ)} (hnd : (P.map (fun p => p.1)).Nodup) :
    (P.map (fun p => dictGet (rankDict (sortBy lt P)) p.1)).Perm
      ((List.range' 1 P.length).map some) := by
  set S := sortBy lt P with hS
  have hndP : P.Nodup := List.Nodup.of_map _ hnd
  have hndS : S.Nodup := sortBy_nodup lt hndP
  have hlen : S.length = P.length := (sortBy_perm lt P).length_eq
  have h1 : P.map (fun p => dictGet (rankDict S) p.1)
      = P.map (fun p => some (posIn S p + 1)) :=
    List.map_congr_left (fun p hp => rank_mem lt hnd hp)
  have h2 : (S.map (fun p => some (posIn S p + 1))).Perm
      (P.map (fun p => some (posIn S p + 1))) := (sortBy_perm lt P).map _
  have h3 : S.map (fun p => some (posIn S p + 1))
      = (List.range' 1 P.length).map some := by
    apply List.ext_getElem
    · simp [hlen]
    · intro i hi hj
      have hiS : i < S.length := by simpa using hi
      rw [List.getElem_map, posIn_getElem hndS i hiS]
      have hiR : i < (List.range' 1 P.length).length := by
        simpa [List.length_range'] using hj
      rw [List.getElem_map]
      rw [List.getElem_range']
      simp only [Option.some.injEq]
      omega
  rw [h1, ← h3]
  exact h2.symm

end RankTheorems

section RankIffs

variable {β : Type} [LinearOrder β] {lt : (String × ℚ) → (String × ℚ) → Bool}
  {f : (String × ℚ) → β}

theorem rank_getD_lt_iff (hk : ∀ x y, lt x y = decide (f x < f y))
    {P : List (String × ℚ)} (hnd : (P.map (fun p => p.1)).Nodup)
    {i j : ℕ} (hi : i < P.length) (hj : j < P.length) :
    ((dictGet (rankDict (sortBy lt P)) (P[i].1)).getD 0
        < (dictGet (rankDict (sortBy lt P)) (P[j].1)).getD 0)
      ↔ (f P[i] < f P[j] ∨ (f P[i] = f P[j] ∧ i < j)) := by
  have hndP : P.Nodup := List.Nodup.of_map _ hnd
  rw [rank_mem lt hnd (List.getElem_mem hi), rank_mem lt hnd (List.getElem_mem hj)]
  simp only [Option.getD_some]
  rw [Nat.add_lt_add_iff_right]
  exact posIn_sortBy_lt_iff hk hndP hi hj

theorem nodup_map_inj {γ δ : Type} {g : γ → δ} {l : List γ}
    (h : (l.map g).Nodup) {x y : γ} (hx : x ∈ l) (hy : y ∈ l)
    (hxy : g x = g y) : x = y :=
  List.inj_on_of_nodup_map h hx hy hxy

end RankIffs

theorem speedPairs_names (results : List CrawlResult) :
    (speedPairs results).map (fun p => p.1)
      = (successes results).map (fun r => r.crawler_type) := by
  rw [speedPairs, List.map_map]
  rfl

theorem qualityPairs_names (results : List CrawlResult) :
    (qualityPairs results).map (fun p => p.1)
      = (successes results).map (fun r => r.crawler_type) := by
  rw [qualityPairs, List.map_map]
  rfl

theorem successes_names_nodup (results : List CrawlResult)
    (hnd : (results.map (fun r => r.crawler_type)).Nodup) :
    ((successes results).map (fun r => r.crawler_type)).Nodup :=
  ((List.filter_sublist results).map (fun r => r.crawler_type)).nodup hnd

/-- C8 amended: provided all stored outcomes have pairwise-distinct strategy
ids, the speed ranks over the successful rows are a permutation of `1..k`
ordered by ascending `time_taken`, the quality ranks are a permutation of
`1..k` ordered by descending structural quality, ties in either are broken by
insertion order (stable), and failed rows get no rank. -/
theorem C8_amended_ranks (results : List CrawlResult)
    (hnd : (results.map (fun r => r.crawler_type)).Nodup) :
    ((successes results).map (fun r => speedRankOf results r.crawler_type)).Perm
        ((List.range' 1 (successes results).length).map some)
      ∧ ((successes results).map (fun r => qualityRankOf results r.crawler_type)).Perm
        ((List.range' 1 (successes results).length).map some)
      ∧ (∀ r ∈ results, r.success = false →
          speedRankOf results r.crawler_type = none
            ∧ qualityRankOf results r.crawler_type = none)
      ∧ (∀ (i j : ℕ) (hi : i < (successes results).length)
          (hj : j < (successes results).length),
          ((speedRankOf results (((successes results)[i]).crawler_type)).getD 0
              < (speedRankOf results (((successes results)[j]).crawler_type)).getD 0
            ↔ (((successes results)[i]).time_taken
                  < ((successes results)[j]).time_taken
                ∨ (((successes results)[i]).time_taken
                      = ((successes results)[j]).time_taken ∧ i < j))))
      ∧ (∀ (i j : ℕ) (hi : i < (successes results).length)
          (hj : j < (successes results).length),
          ((qualityRankOf results (((successes results)[i]).crawler_type)).getD 0
              < (qualityRankOf results (((successes results)[j]).crawler_type)).getD 0
            ↔ (get_structural_quality_score ((successes results)[j])
                  < get_structural_quality_score ((successes results)[i])
                ∨ (get_structural_quality_score ((successes results)[i])
                      = get_structural_quality_score ((successes results)[j])
                    ∧ i < j)))) := by
  have hndsucc : ((successes results).map (fun r => r.crawler_type)).Nodup :=
    successes_names_nodup results hnd
  have hnds : ((speedPairs results).map (fun p => p.1)).Nodup := by
    rw [speedPairs_names]
    exact hndsucc
  have hndq : ((qualityPairs results).map (fun p => p.1)).Nodup := by
    rw [qualityPairs_names]
    exact hndsucc
  refine ⟨?_, ?_, ?_, ?_, ?_⟩
  · have hmap : (speedPairs results).map
        (fun p => dictGet (rankDict
          (sortBy (fun p q => decide (p.2 < q.2)) (speedPairs results))) p.1)
        = (successes results).map (fun r => speedRankOf results r.crawler_type) := by
      rw [speedPairs, List.map_map]
      rfl
    have hlen : (speedPairs results).length = (successes results).length := by
      rw [speedPairs, List.length_map]
    rw [← hmap, ← hlen]
    exact rank_column_perm _ hnds
  · have hmap : (qualityPairs results).map
        (fun p => dictGet (rankDict
          (sortBy (fun p q => decide (q.2 < p.2)) (qualityPairs results))) p.1)
        = (successes results).map (fun r => qualityRankOf results r.crawler_type) := by
      rw [qualityPairs, List.map_map]
      rfl
    have hlen : (qualityPairs results).length = (successes results).length := by
      rw [qualityPairs, List.length_map]
    rw [← hmap, ← hlen]
    exact rank_column_perm _ hndq
  · intro r hr hfail
    have hnotin : ¬ r.crawler_type ∈ (successes results).map (fun s => s.crawler_type) := by
      intro hmem
      rcases List.mem_map.mp hmem with ⟨s, hs, hname⟩
      have hs1 : s ∈ results := (List.mem_filter.mp hs).1
      have hs2 : s.success = true := by simpa using (List.mem_filter.mp hs).2
      have heq : s = r := nodup_map_inj hnd hs1 hr hname
      rw [heq, hfail] at hs2
      exact Bool.false_ne_true hs2
    constructor
    · exact rank_none _ hnds (by rw [speedPairs_names]; exact hnotin)
    · exact rank_none _ hndq (by rw [qualityPairs_names]; exact hnotin)
  · intro i j hi hj
    have hips : i < (speedPairs results).length := by
      simpa [speedPairs] using hi
    have hjps : j < (speedPairs results).length := by
      simpa [speedPairs] using hj
    have h := rank_getD_lt_iff (f := fun p : String × ℚ => p.2)
      (fun x y => rfl) hnds hips hjps
    have hPi : (speedPairs results)[i]
        = ((((successes results)[i])).crawler_type,
            (((successes results)[i])).time_taken) :=
      List.getElem_map _
    have hPj : (speedPairs results)[j]
        = ((((successes results)[j])).crawler_type,
            (((successes results)[j])).time_taken) :=
      List.getElem_map _
    rw [hPi, hPj] at h
    exact h
  · intro i j hi hj
    have hips : i < (qualityPairs results).length := by
      simpa [qualityPairs] using hi
    have hjps : j < (qualityPairs results).length := by
      simpa [qualityPairs] using hj
    have h := rank_getD_lt_iff (f := fun p : String × ℚ => OrderDual.toDual p.2)
      (fun x y => rfl) hndq hips hjps
    have hPi : (qualityPairs results)[i]
        = ((((successes results)[i])).crawler_type,
            get_structural_quality_score ((successes results)[i])) :=
      List.getElem_map _
    have hPj : (qualityPairs results)[j]
        = ((((successes results)[j])).crawler_type,
            get_structural_quality_score ((successes results)[j])) :=
      List.getElem_map _
    rw [hPi, hPj] at h
    exact h

/-- C8 counterexample: with two successful outcomes sharing the strategy id
`"A"` (k = 2), the rank dict collapses on the duplicate key and both rows get
speed rank 2, which is not a permutation of `1..2`. -/
theorem C8_cex :
    speedRankColumn [sampleA, sampleA2] = [some 2, some 2]
      ∧ (successes [sampleA, sampleA2]).length = 2
      ∧ ¬ ([some 2, some 2] : List (Option ℕ)).Perm ((List.range' 1 2).map some) := by
  have h1 : (decide ((1 : ℚ) < 1 / 2)) = false := by norm_num
  have hsorted : speedSorted [sampleA, sampleA2] = [("A", 1 / 2), ("A", 1)] := by
    simp [speedSorted, speedPairs, successes, sortBy, insertBy, sampleA, sampleA2, h1]
    norm_num
  have hrank : speedRankOf [sampleA, sampleA2] ("A") = some 2 := by
    rw [speedRankOf, hsorted]
    rfl
  refine ⟨?_, rfl, by decide⟩
  simp [speedRankColumn, show sampleA.crawler_type = "A" from rfl,
    show sampleA2.crawler_type = "A" from rfl, hrank]

/-- Witness for C8's amended theorem at a store with distinct strategy ids. -/
theorem C8_witness :
    ((successes [sampleA, sampleB, sampleC]).map
        (fun r => speedRankOf [sampleA, sampleB, sampleC] r.crawler_type)).Perm
        ((List.range' 1 (successes [sampleA, sampleB, sampleC]).length).map some)
      ∧ ((successes [sampleA, sampleB, sampleC]).map
          (fun r => qualityRankOf [sampleA, sampleB, sampleC] r.crawler_type)).Perm
        ((List.range' 1 (successes [sampleA, sampleB, sampleC]).length).map some)
      ∧ (∀ r ∈ [sampleA, sampleB, sampleC], r.success = false →
          speedRankOf [sampleA, sampleB, sampleC] r.crawler_type = none
            ∧ qualityRankOf [sampleA, sampleB, sampleC] r.crawler_type = none)
      ∧ (∀ (i j : ℕ) (hi : i < (successes [sampleA, sampleB, sampleC]).length)
          (hj : j < (successes [sampleA, sampleB, sampleC]).length),
          ((speedRankOf [sampleA, sampleB, sampleC]
                (((successes [sampleA, sampleB, sampleC])[i]).crawler_type)).getD 0
              < (speedRankOf [sampleA, sampleB, sampleC]
                (((successes [sampleA, sampleB, sampleC])[j]).crawler_type)).getD 0
            ↔ (((successes [sampleA, sampleB, sampleC])[i]).time_taken
                  < ((successes [sampleA, sampleB, sampleC])[j]).time_taken
                ∨ (((successes [sampleA, sampleB, sampleC])[i]).time_taken
                      = ((successes [sampleA, sampleB, sampleC])[j]).time_taken
                    ∧ i < j))))
      ∧ (∀ (i j : ℕ) (hi : i < (successes [sampleA, sampleB, sampleC]).length)
          (hj : j < (successes [sampleA, sampleB, sampleC]).length),
          ((qualityRankOf [sampleA, sampleB, sampleC]
                (((successes [sampleA, sampleB, sampleC])[i]).crawler_type)).getD 0
              < (qualityRankOf [sampleA, sampleB, sampleC]
                (((successes [sampleA, sampleB, sampleC])[j]).crawler_type)).getD 0
            ↔ (get_structural_quality_score ((successes [sampleA, sampleB, sampleC])[j])
                  < get_structural_quality_score ((successes [sampleA, sampleB, sampleC])[i])
                ∨ (get_structural_quality_score ((successes [sampleA, sampleB, sampleC])[i])
                      = get_structural_quality_score ((successes [sampleA, sampleB, sampleC])[j])
                    ∧ i < j)))) :=
  C8_amended_ranks [sampleA, sampleB, sampleC] (by decide)
